import Mathlib

/-!
Verification of the batch patient-filter pipeline (filter_fhir_by_patients.py)
and the bulk-import filename mapping (bulk_import.py).

The embedding models the filesystem as an association list from path strings
to file contents, where a file's content is its list of lines (the scripts
only ever operate line-wise; zgrep transparently decompresses, so contents
are modelled post-decompression).  The external `zgrep -F -f patterns file`
invocation is modelled by fixed-string substring matching of each pattern
against each line; the exceptional exit paths of the subprocess call
(non-zero non-one exit status, timeout, raised exception) are modelled by an
explicit behaviour parameter.
-/

namespace MimicFilter

/-- Filesystem model: association list from path to list of lines. -/
abbrev FS := List (String × List String)

/-- Lookup of a path in the filesystem. -/
def fsGet : FS → String → Option (List String)
  | [], _ => none
  | (k, v) :: rest, p => if k = p then some v else fsGet rest p

/-- Deletion of a path (Path.unlink). -/
def fsErase : FS → String → FS
  | [], _ => []
  | (k, v) :: rest, p =>
    if k = p then fsErase rest p else (k, v) :: fsErase rest p

/-- Creation or overwrite of a file (open(path, "w") followed by writes). -/
def fsSet (fs : FS) (p : String) (v : List String) : FS :=
  (p, v) :: fsErase fs p

/-- Existence test for a path (Path.exists). -/
def fsHas (fs : FS) (p : String) : Bool :=
  (fsGet fs p).isSome

/-- One line matches when at least one pattern occurs in it as a
case-sensitive byte-for-byte fixed-string substring: the semantics of
`zgrep -F -f pattern_file` applied to that line. -/
def lineMatches (patterns : List String) (line : String) : Bool :=
  patterns.any (fun p => decide (p.data <:+: line.data))

/-- Lines retained by `zgrep -F`: the matching lines, in source order. -/
def matchedLines (patterns : List String) (lines : List String) : List String :=
  lines.filter (lineMatches patterns)

/-- Last component of a path (Path.name), the part after the last slash. -/
def fileNameOf (p : String) : String :=
  String.mk ((p.data.reverse.takeWhile (fun c => !(c == '/'))).reverse)

/-- Characters before the last dot of a list, or none when no dot occurs. -/
def takeUntilLastDot : List Char → Option (List Char)
  | [] => none
  | c :: rest =>
    match takeUntilLastDot rest with
    | some pre => some (c :: pre)
    | none => if c == '.' then some [] else none

/-- Stem of a filename (Path.stem): the name with its last suffix removed; a
dot at position zero does not start a suffix. -/
def stemOf (name : String) : String :=
  match name.data with
  | [] => ""
  | c :: rest =>
    match takeUntilLastDot rest with
    | some pre => String.mk (c :: pre)
    | none => name

/-- Left-to-right removal of every occurrence of ".gz"
(str.replace(".gz", "")). -/
def removeGzChars : List Char → List Char
  | '.' :: 'g' :: 'z' :: rest => removeGzChars rest
  | c :: rest => c :: removeGzChars rest
  | [] => []

/-- Python fhir_file.name.replace(".gz", ""). -/
def removeGz (s : String) : String :=
  String.mk (removeGzChars s.data)

/-- Path of the transient per-task pattern file:
temp_dir / f"patterns_\x7binput_file.stem\x7d.txt". -/
def patternFilePath (tempDir inputPath : String) : String :=
  tempDir ++ "/patterns_" ++ stemOf (fileNameOf inputPath) ++ ".txt"

/-- Path of the per-file output artifact:
temp_dir / fhir_file.name.replace(".gz", ""). -/
def outputPathFor (tempDir inputPath : String) : String :=
  tempDir ++ "/" ++ removeGz (fileNameOf inputPath)

/-- Behaviour of the `subprocess.run(["zgrep", ...])` step.  `normal` is the
deterministic behaviour of zgrep (exit 0 with the matched lines on stdout,
or exit 1 when no line matched); the other constructors model the
exceptional exits of the call: an exit status other than 0 or 1, a
subprocess.TimeoutExpired, and any other raised exception. -/
inductive GrepBeh
  | normal
  | errorStatus
  | timedOut
  | raised
deriving DecidableEq

/-- SimpleBatchFilter.grep_filter_file: create the pattern file, run zgrep
writing matching lines to the output file, unlink the pattern file, then
count the output lines on exit 0, or unlink the output and return 0 on exit
1, any other exit status, timeout, or exception.  The pattern-file unlink
sits between the subprocess call and the status dispatch, so the timeout
and exception handlers never reach it.  Returns the updated scratch
filesystem and the reported count. -/
def grep_filter_file (src : FS) (temp : FS) (tempDir inputPath outputPath : String)
    (patterns : List String) (beh : GrepBeh) : FS × Nat :=
  if (fsGet src inputPath).isSome then
    let pf := patternFilePath tempDir inputPath
    let temp1 := fsSet temp pf patterns
    match beh with
    | .normal =>
      let ms := matchedLines patterns ((fsGet src inputPath).getD [])
      let temp2 := fsSet temp1 outputPath ms
      let temp3 := fsErase temp2 pf
      if ms.isEmpty then (fsErase temp3 outputPath, 0) else (temp3, ms.length)
    | .errorStatus =>
      let temp2 := fsSet temp1 outputPath []
      let temp3 := fsErase temp2 pf
      (fsErase temp3 outputPath, 0)
    | .timedOut =>
      let temp2 := fsSet temp1 outputPath []
      (fsErase temp2 outputPath, 0)
    | .raised =>
      let temp2 := fsSet temp1 outputPath []
      (fsErase temp2 outputPath, 0)
  else (temp, 0)

/-- SimpleBatchFilter.filter_single_file: return (None, 0) when the source
file does not exist, otherwise derive the output path by stripping ".gz"
from the source name and delegate to grep_filter_file; the returned pair
always carries the output path when the source exists. -/
def filter_single_file (src : FS) (temp : FS) (tempDir inputPath : String)
    (patterns : List String) (beh : GrepBeh) : (Option String × Nat) × FS :=
  if (fsGet src inputPath).isSome then
    let out := outputPathFor tempDir inputPath
    let (temp', count) := grep_filter_file src temp tempDir inputPath out patterns beh
    ((some out, count), temp')
  else ((none, 0), temp)

/-- Sequential model of the ThreadPoolExecutor loop in filter_all_files:
one filter_single_file task per source file, each task writing only files it
itself named under the shared scratch directory; results are paired with
their source file (future_to_file).  Tasks run with the normal subprocess
behaviour. -/
def runTasks (src : FS) (tempDir : String) (patterns : List String) :
    List String → FS → List (String × (Option String × Nat)) × FS
  | [], temp => ([], temp)
  | f :: fs, temp =>
    let step := filter_single_file src temp tempDir f patterns .normal
    let rest := runTasks src tempDir patterns fs step.2
    ((f, step.1) :: rest.1, rest.2)

/-- SimpleBatchFilter.filter_all_files restricted to a known file list:
runs every task and returns the per-file results together with the final
scratch filesystem. -/
def filter_all_files (src : FS) (files : List String) (tempDir : String)
    (patterns : List String) : List (String × (Option String × Nat)) × FS :=
  runTasks src tempDir patterns files []

/-- Total match count accumulated by the as_completed loop. -/
def totalOf (results : List (String × (Option String × Nat))) : Nat :=
  (results.map (fun r => r.2.2)).sum

/-- Byte-wise less-or-equal on character lists, the order Python's sorted()
uses on strings (lexicographic by code point). -/
def listLe : List Char → List Char → Bool
  | [], _ => true
  | _ :: _, [] => false
  | a :: as, b :: bs => if a = b then listLe as bs else decide (a < b)

/-- Byte-wise string order backing the sorted() calls. -/
def strLe (a b : String) : Prop := listLe a.data b.data = true

instance : DecidableRel strLe := fun a b => by
  unfold strLe; infer_instance

/-- Python sorted() on a list of strings. -/
def pySorted (l : List String) : List String :=
  List.insertionSort strLe l

/-- Python str.strip() whitespace set. -/
def pySpace (c : Char) : Bool :=
  c == ' ' || c == '\t' || c == '\n' || c == '\r' || c == '\x0b' || c == '\x0c'

/-- Python line.strip(). -/
def pyStrip (s : String) : String :=
  String.mk (((s.data.dropWhile pySpace).reverse.dropWhile pySpace).reverse)

/-- The read_patient_list function: keep each stripped line that is
non-empty and does not start with the "#" comment marker. -/
def read_patient_list (fileLines : List String) : List String :=
  fileLines.filterMap (fun line =>
    let patientId := pyStrip line
    if patientId ≠ "" ∧ ¬ (['#'].isPrefixOf patientId.data) then some patientId
    else none)

/-- The identifier set built by SimpleBatchFilter.__init__:
set(patient_ids), modelled as the deduplicated list (membership and
cardinality agree with the Python set). -/
def patientIdSet (patientIds : List String) : List String :=
  patientIds.dedup

/-- Left pad to width (Python format spec ">n"). -/
def padLeft (s : String) (n : Nat) : String :=
  String.mk (List.replicate (n - s.length) ' ') ++ s

/-- Right pad to width (Python format spec "<n"). -/
def padRight (s : String) (n : Nat) : String :=
  s ++ String.mk (List.replicate (n - s.length) ' ')

/-- Does the path name an .ndjson file (the temp_dir.glob("*.ndjson") set). -/
def isNdjsonPath (p : String) : Bool :=
  ".ndjson".data.isSuffixOf p.data

/-- SimpleBatchFilter.create_summary as the list of lines of SUMMARY.txt.
`enum` is list(self.patient_ids): an enumeration of the identifier set in
the set's unspecified iteration order.  The patient-ID preview sorts only
the first five elements of that enumeration; the per-file section re-counts
the lines of each retained .ndjson artifact, in sorted name order. -/
def summary_lines (enum : List String) (temp : FS) : List String :=
  let n := enum.length
  let preview :=
    String.intercalate ", " (pySorted (enum.take 5)) ++
      (if 5 < n then "..." else "")
  let names := pySorted ((temp.map (fun e => e.1)).filter isNdjsonPath)
  let countOf := fun (p : String) => ((fsGet temp p).getD []).length
  let fileLines := names.map (fun p =>
    padRight (fileNameOf p) 40 ++ " " ++ padLeft (toString (countOf p)) 8
      ++ " resources")
  let total := (names.map countOf).sum
  ["SIMPLE BATCH FILTERING SUMMARY",
   String.mk (List.replicate 40 '='),
   "",
   "Target patients: " ++ toString n,
   "Patient IDs: " ++ preview,
   ""] ++ fileLines ++
  [String.mk (List.replicate 50 '-'),
   padRight "TOTAL" 40 ++ " " ++ padLeft (toString total) 8 ++ " resources"]

/-- Artifacts present in the arena at the end of a run for a fixed corpus:
the retained per-file outputs, plus SUMMARY.txt when the total is non-zero
(main skips create_summary on a zero total). -/
def runArtifacts (src : FS) (files : List String) (tempDir : String)
    (enum : List String) : FS :=
  let r := filter_all_files src files tempDir enum
  if totalOf r.1 = 0 then r.2
  else fsSet r.2 (tempDir ++ "/SUMMARY.txt") (summary_lines enum r.2)

/-- Log events observable from main and filter_all_files. -/
inductive LogEvent
  | errorNoPatientIds
  | errorNoInputFiles
  | warnNoResources
  | infoFiltered (total : Nat)
deriving DecidableEq

/-- Outcome of one whole run of main (up to the finally block). -/
structure RunReport where
  events : List LogEvent
  arenaCreated : Bool
  tasksScheduled : Nat
  results : List (String × (Option String × Nat))
  artifacts : FS
  summaryWritten : Bool
deriving DecidableEq

/-- The main function: abort with the no-patient-IDs error before building
the filter when the identifier list is empty; otherwise create the arena,
abort with the no-input-files error before submitting any task when the
directory scan finds nothing; otherwise run all tasks, and on a zero total
warn and return without writing the summary.  `enum` is the iteration
order of the constructed identifier set. -/
def mainRun (patientIds : List String) (src : FS) (files : List String)
    (tempDir : String) (enum : List String) : RunReport :=
  if patientIds.isEmpty then
    ⟨[.errorNoPatientIds], false, 0, [], [], false⟩
  else if files.isEmpty then
    ⟨[.errorNoInputFiles, .warnNoResources], true, 0, [], [], false⟩
  else
    let r := filter_all_files src files tempDir enum
    let total := totalOf r.1
    if total = 0 then
      ⟨[.warnNoResources], true, files.length, r.1, r.2, false⟩
    else
      ⟨[.infoFiltered total], true, files.length, r.1,
        fsSet r.2 (tempDir ++ "/SUMMARY.txt") (summary_lines enum r.2), true⟩

/-- SimpleBatchFilter.cleanup_temp_directory: shutil.rmtree of the arena.
This method exists but is never invoked anywhere in the script. -/
def cleanup_temp_directory (_arena : FS) : FS := []

/-- The finally block of main: it only logs the preserved location; the
arena is returned untouched whatever the --keep-temp flag said (the flag is
parsed but never read). -/
def mainFinally (_keepTemp : Bool) (arena : Option FS) : Option FS := arena

end MimicFilter

namespace BulkImport

/-- Left-to-right removal of every occurrence of ".ndjson.gz" (first
replace call in map_filename_to_resource_type). -/
def stripNdjsonGz : List Char → List Char
  | '.' :: 'n' :: 'd' :: 'j' :: 's' :: 'o' :: 'n' :: '.' :: 'g' :: 'z' :: rest =>
      stripNdjsonGz rest
  | c :: rest => c :: stripNdjsonGz rest
  | [] => []

/-- Left-to-right removal of every occurrence of ".ndjson" (second replace
call). -/
def stripNdjson : List Char → List Char
  | '.' :: 'n' :: 'd' :: 'j' :: 's' :: 'o' :: 'n' :: rest => stripNdjson rest
  | c :: rest => c :: stripNdjson rest
  | [] => []

/-- base_name = filename.replace(".ndjson.gz", "").replace(".ndjson", ""). -/
def baseNameOf (filename : String) : String :=
  String.mk (stripNdjson (stripNdjsonGz filename.data))

/-- The type_mapping dict of map_filename_to_resource_type, in insertion
order (Python dicts iterate in insertion order). -/
def typeMapping : List (String × String) :=
  [("MimicPatient", "Patient"),
   ("MimicCondition", "Condition"),
   ("MimicEncounter", "Encounter"),
   ("MimicLocation", "Location"),
   ("MimicOrganization", "Organization"),
   ("MimicMedication", "Medication"),
   ("MimicMedicationAdministration", "MedicationAdministration"),
   ("MimicMedicationDispense", "MedicationDispense"),
   ("MimicMedicationRequest", "MedicationRequest"),
   ("MimicMedicationStatement", "MedicationStatement"),
   ("MimicObservation", "Observation"),
   ("MimicProcedure", "Procedure"),
   ("MimicSpecimen", "Specimen")]

/-- The for-loop over type_mapping.items(): first entry whose key is a
prefix of the base name wins. -/
def findPrefixMatch : List (String × String) → String → Option String
  | [], _ => none
  | (pat, rt) :: rest, base =>
    if pat.data.isPrefixOf base.data then some rt else findPrefixMatch rest base

/-- Case-sensitive substring test ("x in base_name"). -/
def containsSub (base pat : String) : Bool :=
  decide (pat.data <:+: base.data)

/-- The elif fallback chain of map_filename_to_resource_type. -/
def fallbackType (base : String) : String :=
  if containsSub base "Patient" then "Patient"
  else if containsSub base "Condition" then "Condition"
  else if containsSub base "Encounter" then "Encounter"
  else if containsSub base "Observation" then "Observation"
  else if containsSub base "Medication" then
    if containsSub base "Administration" then "MedicationAdministration"
    else if containsSub base "Dispense" then "MedicationDispense"
    else if containsSub base "Request" then "MedicationRequest"
    else if containsSub base "Statement" then "MedicationStatement"
    else "Medication"
  else if containsSub base "Procedure" then "Procedure"
  else if containsSub base "Specimen" then "Specimen"
  else if containsSub base "Location" then "Location"
  else if containsSub base "Organization" then "Organization"
  else "Unknown"

/-- FHIRBulkImporter.map_filename_to_resource_type. -/
def map_filename_to_resource_type (filename : String) : String :=
  let base := baseNameOf filename
  match findPrefixMatch typeMapping base with
  | some rt => rt
  | none => fallbackType base

end BulkImport

namespace MimicFilter

/-- Lookup after deletion: the deleted path reads as absent, every other
path is untouched. -/
lemma fsGet_fsErase (fs : FS) (p q : String) :
    fsGet (fsErase fs q) p = if p = q then none else fsGet fs p := by
  induction fs with
  | nil => simp [fsGet, fsErase]
  | cons e rest ih =>
    obtain ⟨k, v⟩ := e
    by_cases hk : k = q
    · subst hk
      by_cases hp : p = k
      · subst hp; simp_all [fsGet, fsErase]
      · simp_all [fsGet, fsErase, Ne.symm hp]
    · by_cases hp : p = k
      · subst hp; simp_all [fsGet, fsErase, Ne.symm hk]
      · simp_all [fsGet, fsErase, Ne.symm hp]

/-- Lookup after a write: the written path reads the new value, every other
path is untouched. -/
lemma fsGet_fsSet (fs : FS) (p q : String) (v : List String) :
    fsGet (fsSet fs q v) p = if p = q then some v else fsGet fs p := by
  by_cases hp : p = q
  · subst hp; simp [fsGet, fsSet]
  · simp [fsGet, fsSet, Ne.symm hp, hp, fsGet_fsErase]

/-- Matching is invariant under reordering of the identifier set:
zgrep tests each line against every pattern, so the enumeration order of
the set does not matter. -/
lemma lineMatches_perm {e₁ e₂ : List String} (h : e₁.Perm e₂) (l : String) :
    lineMatches e₁ l = lineMatches e₂ l := by
  unfold lineMatches
  cases hb : e₂.any (fun p => decide (p.data <:+: l.data)) with
  | true =>
    rw [List.any_eq_true] at hb ⊢
    obtain ⟨p, hp, hm⟩ := hb
    exact ⟨p, h.mem_iff.mpr hp, hm⟩
  | false =>
    rw [List.any_eq_false] at hb ⊢
    intro p hp
    exact hb p (h.mem_iff.mp hp)

/-- Retained lines are invariant under reordering of the identifier set. -/
lemma matchedLines_perm {e₁ e₂ : List String} (h : e₁.Perm e₂)
    (lines : List String) : matchedLines e₁ lines = matchedLines e₂ lines :=
  List.filter_congr (fun l _ => lineMatches_perm h l)

/-- Erasing a key ignores the value any overwritten write gave it. -/
lemma fsErase_fsErase_comm (fs : FS) (p q : String) :
    fsErase (fsErase fs p) q = fsErase (fsErase fs q) p := by
  induction fs with
  | nil => rfl
  | cons e rest ih =>
    obtain ⟨k, v⟩ := e
    by_cases hp : k = p <;> by_cases hq : k = q <;> simp_all [fsErase]

/-- Erasing a key ignores the value any overwritten write gave it. -/
lemma fsErase_fsSet_fsSet (temp : FS) (pf out : String)
    (v₁ v₂ w : List String) :
    fsErase (fsSet (fsSet temp pf v₁) out w) pf
      = fsErase (fsSet (fsSet temp pf v₂) out w) pf := by
  by_cases h : pf = out
  · subst h; simp [fsSet, fsErase]
  · simp [fsSet, fsErase, h, Ne.symm h, fsErase_fsErase_comm]

end MimicFilter

namespace MimicFilter

/-- Totality of the byte-wise character-list order. -/
lemma listLe_total : ∀ a b : List Char, listLe a b = true ∨ listLe b a = true
  | [], _ => Or.inl rfl
  | _ :: _, [] => Or.inr rfl
  | a :: as, b :: bs => by
    by_cases h : a = b
    · subst h
      simpa [listLe] using listLe_total as bs
    · rcases lt_trichotomy a b with hlt | heq | hgt
      · left; simp [listLe, h, hlt]
      · exact absurd heq h
      · right; simp [listLe, Ne.symm h, hgt]

/-- Transitivity of the byte-wise character-list order. -/
lemma listLe_trans : ∀ a b c : List Char,
    listLe a b = true → listLe b c = true → listLe a c = true
  | [], _, _, _, _ => rfl
  | _ :: _, [], _, hab, _ => by simp [listLe] at hab
  | _ :: _, _ :: _, [], _, hbc => by simp [listLe] at hbc
  | a :: as, b :: bs, c :: cs, hab, hbc => by
    simp only [listLe] at hab hbc ⊢
    by_cases h1 : a = b <;> by_cases h2 : b = c
    · subst h1; subst h2
      simp_all
      exact listLe_trans as bs cs hab hbc
    · subst h1
      simp_all
    · subst h2
      simp_all
    · simp only [h1, if_false, decide_eq_true_eq] at hab
      simp only [h2, if_false, decide_eq_true_eq] at hbc
      have hac : a < c := lt_trans hab hbc
      simp [ne_of_lt hac, hac]

/-- Antisymmetry of the byte-wise character-list order. -/
lemma listLe_antisymm : ∀ a b : List Char,
    listLe a b = true → listLe b a = true → a = b
  | [], [], _, _ => rfl
  | [], _ :: _, _, hba => by simp [listLe] at hba
  | _ :: _, [], hab, _ => by simp [listLe] at hab
  | a :: as, b :: bs, hab, hba => by
    by_cases h : a = b
    · subst h
      simp only [listLe, if_pos rfl] at hab hba
      rw [listLe_antisymm as bs hab hba]
    · simp only [listLe, h, Ne.symm h, if_false, decide_eq_true_eq] at hab hba
      exact absurd hba (lt_asymm hab)

instance : IsTotal String strLe :=
  ⟨fun a b => listLe_total a.data b.data⟩

instance : IsTrans String strLe :=
  ⟨fun a b c => listLe_trans a.data b.data c.data⟩

instance : IsAntisymm String strLe :=
  ⟨fun a b hab hba => String.ext (listLe_antisymm a.data b.data hab hba)⟩

/-- Python sorted() is a function of the multiset of its input: two
enumerations of the same set sort to the same list. -/
lemma pySorted_perm_eq {l₁ l₂ : List String} (h : l₁.Perm l₂) :
    pySorted l₁ = pySorted l₂ :=
  List.eq_of_perm_of_sorted
    ((List.perm_insertionSort strLe l₁).trans
      (h.trans (List.perm_insertionSort strLe l₂).symm))
    (List.sorted_insertionSort strLe l₁)
    (List.sorted_insertionSort strLe l₂)

/-- With at most five identifiers the summary text does not depend on the
iteration order of the identifier set. -/
lemma summary_lines_perm {enum₁ enum₂ : List String} (temp : FS)
    (h : enum₁.Perm enum₂) (hlen : enum₁.length ≤ 5) :
    summary_lines enum₁ temp = summary_lines enum₂ temp := by
  have hlen₂ : enum₂.length ≤ 5 := h.length_eq ▸ hlen
  unfold summary_lines
  rw [h.length_eq, List.take_of_length_le hlen, List.take_of_length_le hlen₂,
    pySorted_perm_eq h]

end MimicFilter

namespace MimicFilter

/-- The state left by one grep invocation does not depend on the iteration
order of the identifier set: the pattern file is erased again and matching
is order-insensitive. -/
lemma grep_filter_file_perm {e₁ e₂ : List String} (h : e₁.Perm e₂)
    (src temp : FS) (dir inp out : String) :
    grep_filter_file src temp dir inp out e₁ .normal
      = grep_filter_file src temp dir inp out e₂ .normal := by
  unfold grep_filter_file
  by_cases hs : (fsGet src inp).isSome
  · simp only [hs, if_true]
    rw [matchedLines_perm h ((fsGet src inp).getD []),
      fsErase_fsSet_fsSet temp (patternFilePath dir inp) out e₁ e₂]
  · simp [hs]

/-- Task-level counterpart of grep_filter_file_perm. -/
lemma filter_single_file_perm {e₁ e₂ : List String} (h : e₁.Perm e₂)
    (src temp : FS) (dir inp : String) :
    filter_single_file src temp dir inp e₁ .normal
      = filter_single_file src temp dir inp e₂ .normal := by
  unfold filter_single_file
  simp only [grep_filter_file_perm h]

/-- Run-level counterpart: the whole task loop is invariant under
reordering of the identifier set. -/
lemma runTasks_perm {e₁ e₂ : List String} (h : e₁.Perm e₂)
    (src : FS) (dir : String) :
    ∀ (files : List String) (temp : FS),
      runTasks src dir e₁ files temp = runTasks src dir e₂ files temp := by
  intro files
  induction files with
  | nil => intro temp; rfl
  | cons f fs ih =>
    intro temp
    simp only [runTasks, filter_single_file_perm h, ih]

/-- The pair a task returns (artifact reference, count) does not depend on
the scratch filesystem it starts from. -/
lemma filter_single_file_fst_indep (src : FS) (temp temp' : FS)
    (dir inp : String) (patterns : List String) (beh : GrepBeh) :
    (filter_single_file src temp dir inp patterns beh).1
      = (filter_single_file src temp' dir inp patterns beh).1 := by
  unfold filter_single_file grep_filter_file
  by_cases hs : (fsGet src inp).isSome
  · cases beh <;> simp [hs]
    split <;> rfl
  · simp [hs]

/-- The result list of the task loop is the independent per-task outcome of
each file, in submission order: no task's outcome depends on any sibling. -/
lemma runTasks_results (src : FS) (dir : String) (patterns : List String) :
    ∀ (files : List String) (temp : FS),
      (runTasks src dir patterns files temp).1 = files.map
        (fun f => (f, (filter_single_file src [] dir f patterns .normal).1)) := by
  intro files
  induction files with
  | nil => intro temp; rfl
  | cons f fs ih =>
    intro temp
    simp only [runTasks, List.map_cons, ih,
      filter_single_file_fst_indep src temp [] dir f patterns .normal]

end MimicFilter

namespace MimicFilter

/-- Worked example from the spec: TypeA.ndjson.gz with three one-record
lines keyed by subjects P001, P999, P002. -/
def exLines : List String :=
  ["\x7b\"subject\":\"P001\"\x7d", "\x7b\"subject\":\"P999\"\x7d",
   "\x7b\"subject\":\"P002\"\x7d"]

/-- Source corpus holding only the worked-example file. -/
def srcEx : FS := [("in/TypeA.ndjson.gz", exLines)]

/-- C1: filtering a readable source file against a non-empty identifier
set, when at least one line matches, leaves an output artifact holding
exactly those source lines that contain some identifier as a
case-sensitive byte-for-byte fixed-string substring, each a verbatim
source line in original source order, and reports their number as the
match count. -/
theorem C1_filter_keeps_exact_matches (src temp : FS) (dir inp out : String)
    (patterns lines : List String)
    (hsrc : fsGet src inp = some lines)
    (hout : out ≠ patternFilePath dir inp)
    (hpat : patterns ≠ [])
    (hm : matchedLines patterns lines ≠ []) :
    fsGet (grep_filter_file src temp dir inp out patterns .normal).1 out
      = some (matchedLines patterns lines) ∧
    (grep_filter_file src temp dir inp out patterns .normal).2
      = (matchedLines patterns lines).length ∧
    (matchedLines patterns lines).Sublist lines ∧
    (∀ l, l ∈ matchedLines patterns lines ↔
      l ∈ lines ∧ ∃ p ∈ patterns, p.data <:+: l.data) := by
  have hs : (fsGet src inp).isSome = true := by rw [hsrc]; rfl
  have hd : (fsGet src inp).getD [] = lines := by rw [hsrc]; rfl
  have hne : (matchedLines patterns lines).isEmpty = false := by
    cases hc : matchedLines patterns lines with
    | nil => exact absurd hc hm
    | cons a l => rfl
  refine ⟨?_, ?_, List.filter_sublist lines, ?_⟩
  · unfold grep_filter_file
    simp only [hs, if_true, hd, hne, Bool.false_eq_true, if_false]
    rw [fsGet_fsErase, if_neg hout, fsGet_fsSet, if_pos rfl]
  · unfold grep_filter_file
    simp only [hs, if_true, hd, hne, Bool.false_eq_true, if_false]
  · intro l
    unfold matchedLines lineMatches
    simp [List.mem_filter, List.any_eq_true]

/-- Witness for C1 at the spec's worked example: identifiers P001 and P002
against the three TypeA lines keep exactly the first and third lines with
count two. -/
theorem C1_witness :
    fsGet srcEx "in/TypeA.ndjson.gz" = some exLines ∧
    matchedLines ["P001", "P002"] exLines ≠ [] ∧
    fsGet (grep_filter_file srcEx [] "tmp" "in/TypeA.ndjson.gz"
        "tmp/TypeA.ndjson" ["P001", "P002"] .normal).1 "tmp/TypeA.ndjson"
      = some ["\x7b\"subject\":\"P001\"\x7d", "\x7b\"subject\":\"P002\"\x7d"] ∧
    (grep_filter_file srcEx [] "tmp" "in/TypeA.ndjson.gz" "tmp/TypeA.ndjson"
        ["P001", "P002"] .normal).2 = 2 := by
  have h := C1_filter_keeps_exact_matches srcEx [] "tmp" "in/TypeA.ndjson.gz"
      "tmp/TypeA.ndjson" ["P001", "P002"] exLines (by decide) (by decide)
      (by decide) (by decide)
  exact ⟨by decide, by decide, h.1.trans (by decide), h.2.1.trans (by decide)⟩

/-- C2 counterexample: on a source file with zero matching lines the task
deletes the output file and reports count zero, but its returned result
still carries the output path — an artifact reference — rather than the
absent reference the claim requires. -/
theorem C2_counterexample :
    (filter_single_file srcEx [] "tmp" "in/TypeA.ndjson.gz" ["ZZZ"] .normal).1
      = (some "tmp/TypeA.ndjson", 0) ∧
    (filter_single_file srcEx [] "tmp" "in/TypeA.ndjson.gz" ["ZZZ"] .normal).1.1
      ≠ none ∧
    fsHas (filter_single_file srcEx [] "tmp" "in/TypeA.ndjson.gz" ["ZZZ"]
        .normal).2 "tmp/TypeA.ndjson" = false := by
  refine ⟨by decide, by decide, by decide⟩

/-- C2 (amended): with zero matching lines the task deletes the created
output file, so no artifact is retained on disk, and reports count zero;
the returned task result however still names the output path of the
deleted file. -/
theorem C2_zero_matches_no_artifact (src temp : FS) (dir inp : String)
    (patterns lines : List String)
    (hsrc : fsGet src inp = some lines)
    (hm : matchedLines patterns lines = []) :
    (filter_single_file src temp dir inp patterns .normal).1
      = (some (outputPathFor dir inp), 0) ∧
    fsHas (filter_single_file src temp dir inp patterns .normal).2
      (outputPathFor dir inp) = false := by
  have hs : (fsGet src inp).isSome = true := by rw [hsrc]; rfl
  have hd : (fsGet src inp).getD [] = lines := by rw [hsrc]; rfl
  unfold filter_single_file grep_filter_file
  simp only [hs, if_true, hd, hm, List.isEmpty_nil, if_true]
  exact ⟨trivial, by simp [fsHas, fsGet_fsErase]⟩

/-- Witness for C2's amended statement: identifiers that match nothing in
the TypeA example produce a deleted artifact with a still-present path
reference and count zero. -/
theorem C2_witness :
    fsGet srcEx "in/TypeA.ndjson.gz" = some exLines ∧
    matchedLines ["Q777"] exLines = [] ∧
    (filter_single_file srcEx [] "tmp" "in/TypeA.ndjson.gz" ["Q777"] .normal).1
      = (some (outputPathFor "tmp" "in/TypeA.ndjson.gz"), 0) ∧
    fsHas (filter_single_file srcEx [] "tmp" "in/TypeA.ndjson.gz" ["Q777"]
        .normal).2 (outputPathFor "tmp" "in/TypeA.ndjson.gz") = false := by
  have h := C2_zero_matches_no_artifact srcEx [] "tmp" "in/TypeA.ndjson.gz"
      ["Q777"] exLines (by decide) (by decide)
  exact ⟨by decide, by decide, h.1, h.2⟩

/-- C6 counterexample: when the matcher invocation raises (or would time
out), the exception handler deletes only the output file; the transient
pattern file survives, refuting removal on every exit path. -/
theorem C6_counterexample :
    fsHas (grep_filter_file srcEx [] "tmp" "in/TypeA.ndjson.gz"
        "tmp/TypeA.ndjson" ["P001"] .raised).1
      "tmp/patterns_TypeA.ndjson.txt" = true ∧
    fsHas (grep_filter_file srcEx [] "tmp" "in/TypeA.ndjson.gz"
        "tmp/TypeA.ndjson" ["P001"] .timedOut).1
      "tmp/patterns_TypeA.ndjson.txt" = true ∧
    fsHas (grep_filter_file srcEx [] "tmp" "in/TypeA.ndjson.gz"
        "tmp/TypeA.ndjson" ["P001"] .raised).1 "tmp/TypeA.ndjson" = false := by
  refine ⟨by decide, by decide, by decide⟩

/-- C6 (amended): for an existing source the task writes exactly one
transient pattern-snapshot file and removes it on the success path and on
the matcher-error-status path; on a timeout or any other exception raised
by the matcher invocation the pattern file is left behind with the full
identifier snapshot (only the output file is removed). -/
theorem C6_pattern_file_lifecycle (src temp : FS) (dir inp out : String)
    (patterns : List String)
    (hs : (fsGet src inp).isSome = true)
    (hne : patternFilePath dir inp ≠ out) :
    fsHas (grep_filter_file src temp dir inp out patterns .normal).1
      (patternFilePath dir inp) = false ∧
    fsHas (grep_filter_file src temp dir inp out patterns .errorStatus).1
      (patternFilePath dir inp) = false ∧
    fsGet (grep_filter_file src temp dir inp out patterns .timedOut).1
      (patternFilePath dir inp) = some patterns ∧
    fsGet (grep_filter_file src temp dir inp out patterns .raised).1
      (patternFilePath dir inp) = some patterns := by
  unfold grep_filter_file
  simp only [hs, if_true]
  refine ⟨?_, ?_, ?_, ?_⟩
  · split
    · simp [fsHas, fsGet_fsErase, hne]
    · simp [fsHas, fsGet_fsErase]
  · simp [fsHas, fsGet_fsErase, hne]
  · simp [fsGet_fsErase, hne, fsGet_fsSet]
  · simp [fsGet_fsErase, hne, fsGet_fsSet]

/-- Witness for C6's amended statement at the TypeA example. -/
theorem C6_witness :
    (fsGet srcEx "in/TypeA.ndjson.gz").isSome = true ∧
    patternFilePath "tmp" "in/TypeA.ndjson.gz" ≠ "tmp/TypeA.ndjson" ∧
    fsHas (grep_filter_file srcEx [] "tmp" "in/TypeA.ndjson.gz"
        "tmp/TypeA.ndjson" ["P001"] .normal).1
      (patternFilePath "tmp" "in/TypeA.ndjson.gz") = false ∧
    fsGet (grep_filter_file srcEx [] "tmp" "in/TypeA.ndjson.gz"
        "tmp/TypeA.ndjson" ["P001"] .raised).1
      (patternFilePath "tmp" "in/TypeA.ndjson.gz") = some ["P001"] := by
  have h := C6_pattern_file_lifecycle srcEx [] "tmp" "in/TypeA.ndjson.gz"
      "tmp/TypeA.ndjson" ["P001"] (by decide) (by decide)
  exact ⟨by decide, by decide, h.1, h.2.2.2⟩

end MimicFilter

namespace MimicFilter

/-- Corpus for the C3 counterexample: one source file whose single line
matches the identifier PA. -/
def src6 : FS := [("in/T.ndjson.gz", ["line with PA inside"])]

/-- One iteration order of a six-identifier set. -/
def enumA : List String := ["PA", "PB", "PC", "PD", "PE", "PF"]

/-- Another iteration order of the same six-identifier set. -/
def enumB : List String := ["PF", "PE", "PD", "PC", "PB", "PA"]

/-- C3 counterexample: with more than five identifiers the summary's
patient-ID preview line sorts only the first five elements of the set's
iteration order, so two runs over the same identifier set and corpus can
emit byte-different summary artifacts. -/
theorem C3_counterexample :
    enumB.Perm enumA ∧ enumA.dedup = enumA ∧ enumB.dedup = enumB ∧
    runArtifacts src6 ["in/T.ndjson.gz"] "tmp" enumA
      ≠ runArtifacts src6 ["in/T.ndjson.gz"] "tmp" enumB := by
  refine ⟨by decide, by decide, by decide, by decide⟩

/-- C3 (amended): per-file artifacts and per-file and total counts are
identical across any two runs with the same identifier set and corpus
whatever the set iteration order, and with at most five identifiers the
whole artifact set including the summary is identical; only the summary's
patient-ID preview line can differ when more than five identifiers are
supplied. -/
theorem C3_deterministic_up_to_preview (src : FS) (files : List String)
    (dir : String) (enum₁ enum₂ : List String) (h : enum₁.Perm enum₂) :
    filter_all_files src files dir enum₁
      = filter_all_files src files dir enum₂ ∧
    (enum₁.length ≤ 5 →
      runArtifacts src files dir enum₁ = runArtifacts src files dir enum₂) := by
  have hall : filter_all_files src files dir enum₁
      = filter_all_files src files dir enum₂ := runTasks_perm h src dir files []
  refine ⟨hall, fun hlen => ?_⟩
  unfold runArtifacts
  rw [hall]
  simp only [summary_lines_perm (filter_all_files src files dir enum₂).2 h hlen]

/-- Witness for C3's amended statement: two iteration orders of a
two-identifier set give identical results and identical artifacts. -/
theorem C3_witness :
    (["PA", "PB"] : List String).Perm ["PB", "PA"] ∧
    filter_all_files srcEx ["in/TypeA.ndjson.gz"] "tmp" ["PA", "PB"]
      = filter_all_files srcEx ["in/TypeA.ndjson.gz"] "tmp" ["PB", "PA"] ∧
    runArtifacts srcEx ["in/TypeA.ndjson.gz"] "tmp" ["PA", "PB"]
      = runArtifacts srcEx ["in/TypeA.ndjson.gz"] "tmp" ["PB", "PA"] := by
  have hp : (["PA", "PB"] : List String).Perm ["PB", "PA"] := by decide
  have h := C3_deterministic_up_to_preview srcEx ["in/TypeA.ndjson.gz"] "tmp"
      ["PA", "PB"] ["PB", "PA"] hp
  exact ⟨hp, h.1, h.2 (by decide)⟩

/-- C4: with a non-empty identifier list and an empty source-file scan the
run schedules no task, reports the no-input-files error, and writes no
summary and no artifacts; a run that found input files never reports that
error, and when it produced zero total matches it reports only the
empty-result warning, so the two reports are distinct. -/
theorem C4_no_input_files_fatal (ids enum : List String) (src : FS)
    (dir : String) (files : List String)
    (hids : ids ≠ []) (hfiles : files ≠ [])
    (hzero : totalOf (filter_all_files src files dir enum).1 = 0) :
    (mainRun ids src [] dir enum).tasksScheduled = 0 ∧
    (mainRun ids src [] dir enum).events
      = [.errorNoInputFiles, .warnNoResources] ∧
    (mainRun ids src [] dir enum).summaryWritten = false ∧
    (mainRun ids src [] dir enum).artifacts = [] ∧
    LogEvent.errorNoInputFiles ∉ (mainRun ids src files dir enum).events ∧
    (mainRun ids src files dir enum).events = [.warnNoResources] ∧
    (mainRun ids src files dir enum).events
      ≠ (mainRun ids src [] dir enum).events := by
  have hid : ids.isEmpty = false := by
    cases ids with
    | nil => exact absurd rfl hids
    | cons a l => rfl
  have hfl : files.isEmpty = false := by
    cases files with
    | nil => exact absurd rfl hfiles
    | cons a l => rfl
  unfold mainRun
  simp only [hid, hfl, List.isEmpty_nil, Bool.false_eq_true, if_false, if_true,
    hzero]
  exact ⟨trivial, trivial, trivial, trivial, by decide, trivial, by decide⟩

/-- Witness for C4 with one identifier, an empty corpus and one listed
file whose absence makes every count zero. -/
theorem C4_witness :
    (["P001"] : List String) ≠ [] ∧
    (["in/a.ndjson.gz"] : List String) ≠ [] ∧
    totalOf (filter_all_files [] ["in/a.ndjson.gz"] "tmp" ["P001"]).1 = 0 ∧
    (mainRun ["P001"] [] [] "tmp" ["P001"]).tasksScheduled = 0 ∧
    (mainRun ["P001"] [] [] "tmp" ["P001"]).events
      = [.errorNoInputFiles, .warnNoResources] ∧
    LogEvent.errorNoInputFiles
      ∉ (mainRun ["P001"] [] ["in/a.ndjson.gz"] "tmp" ["P001"]).events ∧
    (mainRun ["P001"] [] ["in/a.ndjson.gz"] "tmp" ["P001"]).events
      ≠ (mainRun ["P001"] [] [] "tmp" ["P001"]).events := by
  have h := C4_no_input_files_fatal ["P001"] ["P001"] [] "tmp"
      ["in/a.ndjson.gz"] (by decide) (by decide) (by decide)
  exact ⟨by decide, by decide, by decide, h.1, h.2.1, h.2.2.2.2.1, h.2.2.2.2.2.2⟩

/-- C5: the result list pairs every submitted file with the outcome its
task computes in isolation, so a missing source file yields the soft
(no artifact, count zero) result while every sibling file still yields its
own result — one result per submitted file. -/
theorem C5_missing_source_isolated (src : FS) (dir : String)
    (patterns files : List String) (f : String)
    (hmem : f ∈ files) (hmiss : fsGet src f = none) :
    (filter_all_files src files dir patterns).1 = files.map
      (fun g => (g, (filter_single_file src [] dir g patterns .normal).1)) ∧
    (f, ((none : Option String), 0)) ∈ (filter_all_files src files dir patterns).1 ∧
    (filter_all_files src files dir patterns).1.length = files.length := by
  have hres : (filter_all_files src files dir patterns).1 = files.map
      (fun g => (g, (filter_single_file src [] dir g patterns .normal).1)) := by
    unfold filter_all_files
    exact runTasks_results src dir patterns files []
  have hf : (filter_single_file src [] dir f patterns .normal).1 = (none, 0) := by
    unfold filter_single_file
    simp [hmiss]
  refine ⟨hres, ?_, ?_⟩
  · rw [hres]
    exact List.mem_map.mpr ⟨f, hmem, by rw [hf]⟩
  · rw [hres, List.length_map]

/-- Witness for C5: a corpus holding only TypeA, with a second listed file
missing; the missing file reports (no artifact, 0) and TypeA still reports
its artifact with one match. -/
theorem C5_witness :
    ("in/missing.ndjson.gz"
      ∈ (["in/TypeA.ndjson.gz", "in/missing.ndjson.gz"] : List String)) ∧
    fsGet srcEx "in/missing.ndjson.gz" = none ∧
    ("in/missing.ndjson.gz", ((none : Option String), 0)) ∈
      (filter_all_files srcEx ["in/TypeA.ndjson.gz", "in/missing.ndjson.gz"]
        "tmp" ["P001"]).1 ∧
    ("in/TypeA.ndjson.gz", ((some "tmp/TypeA.ndjson" : Option String), 1)) ∈
      (filter_all_files srcEx ["in/TypeA.ndjson.gz", "in/missing.ndjson.gz"]
        "tmp" ["P001"]).1 ∧
    (filter_all_files srcEx ["in/TypeA.ndjson.gz", "in/missing.ndjson.gz"]
      "tmp" ["P001"]).1.length = 2 := by
  have h := C5_missing_source_isolated srcEx "tmp" ["P001"]
      ["in/TypeA.ndjson.gz", "in/missing.ndjson.gz"] "in/missing.ndjson.gz"
      (by decide) (by decide)
  refine ⟨by decide, by decide, h.2.1, ?_, h.2.2⟩
  rw [h.1]
  decide

end MimicFilter

namespace MimicFilter

/-- C7: reading a newline-delimited identifier file keeps exactly the
stripped non-blank lines that do not start with the "#" comment marker,
the constructed identifier set silently collapses duplicates (no
duplicates, same membership), and the worked example of one identifier, a
blank line and a comment yields the one-element set containing P001. -/
theorem C7_identifier_file_parsing :
    (∀ (fileLines : List String) (x : String),
      x ∈ read_patient_list fileLines ↔
        ∃ line ∈ fileLines, pyStrip line = x ∧ x ≠ ""
          ∧ ¬ (['#'].isPrefixOf x.data)) ∧
    (∀ fileLines : List String,
      (patientIdSet (read_patient_list fileLines)).Nodup ∧
      ∀ x, x ∈ patientIdSet (read_patient_list fileLines)
        ↔ x ∈ read_patient_list fileLines) ∧
    read_patient_list ["P001", "", "# comment"] = ["P001"] ∧
    patientIdSet (read_patient_list ["P001", "", "# comment"]) = ["P001"] ∧
    (patientIdSet (read_patient_list ["P001", "", "# comment"])).length = 1 := by
  refine ⟨?_, ?_, by decide, by decide, by decide⟩
  · intro fileLines x
    simp only [read_patient_list, List.mem_filterMap]
    constructor
    · rintro ⟨line, hline, hsome⟩
      by_cases hc : pyStrip line ≠ "" ∧ ¬ (['#'].isPrefixOf (pyStrip line).data)
      · rw [if_pos hc] at hsome
        obtain rfl : pyStrip line = x := Option.some_injective _ hsome
        exact ⟨line, hline, rfl, hc.1, hc.2⟩
      · rw [if_neg hc] at hsome
        exact absurd hsome (Option.noConfusion)
    · rintro ⟨line, hline, hstrip, hne, hpre⟩
      refine ⟨line, hline, ?_⟩
      rw [hstrip, if_pos ⟨hne, hpre⟩]
  · intro fileLines
    exact ⟨List.nodup_dedup _, fun x => List.mem_dedup⟩

/-- C8: an empty identifier list makes main abort with the invalid-input
error before any work: no arena, no scheduled task, no artifacts, no
summary. -/
theorem C8_empty_identifiers_abort (ids enum : List String) (src : FS)
    (files : List String) (dir : String) (h : ids = []) :
    mainRun ids src files dir enum
      = ⟨[.errorNoPatientIds], false, 0, [], [], false⟩ := by
  subst h
  rfl

/-- Witness for C8 at the empty identifier list. -/
theorem C8_witness :
    ([] : List String) = [] ∧
    mainRun [] srcEx ["in/TypeA.ndjson.gz"] "tmp" []
      = ⟨[.errorNoPatientIds], false, 0, [], [], false⟩ :=
  ⟨rfl, C8_empty_identifiers_abort [] [] srcEx ["in/TypeA.ndjson.gz"] "tmp" rfl⟩

/-- C10 counterexample: with the keep-temp option unset (the discard
request), the end-of-run step still returns the arena untouched, and its
effect is identical to the option being set — the caller option does not
control whether the arena is discarded. -/
theorem C10_counterexample :
    mainFinally false (some [("tmp/TypeA.ndjson", ["r1"])])
      = some [("tmp/TypeA.ndjson", ["r1"])] ∧
    mainFinally false (some [("tmp/TypeA.ndjson", ["r1"])]) ≠ none ∧
    mainFinally true (some [("tmp/TypeA.ndjson", ["r1"])])
      = mainFinally false (some [("tmp/TypeA.ndjson", ["r1"])]) := by
  refine ⟨rfl, by decide, rfl⟩

/-- C10 (amended): the program never removes the arena at run end — the
finally block preserves it for every option value, so partial results
always remain available for inspection; removal exists only in the
explicit cleanup method, which deletes the whole arena and which no caller
invokes. -/
theorem C10_arena_always_preserved :
    (∀ (keepTemp : Bool) (arena : Option FS),
      mainFinally keepTemp arena = arena) ∧
    (∀ keepTemp keepTemp' : Bool, ∀ arena : Option FS,
      mainFinally keepTemp arena = mainFinally keepTemp' arena) ∧
    (∀ arena : FS, cleanup_temp_directory arena = []) :=
  ⟨fun _ _ => rfl, fun _ _ _ => rfl, fun _ => rfl⟩

end MimicFilter

namespace BulkImport

/-- C9: the filename-to-resource-type table is consulted in insertion
order, so the MimicMedication entry shadows its own longer entries: a
filename beginning MimicMedicationAdministration (or Dispense, Request,
Statement) is mapped to Medication, contradicting the table's listed
MedicationAdministration entry; unshadowed prefixes map to their listed
types and a name matching nothing maps to Unknown. -/
theorem C9_shadowed_table_entries :
    ("MimicMedicationAdministration", "MedicationAdministration")
      ∈ typeMapping ∧
    map_filename_to_resource_type "MimicMedicationAdministration.ndjson.gz"
      = "Medication" ∧
    map_filename_to_resource_type "MimicMedicationDispense.ndjson.gz"
      = "Medication" ∧
    map_filename_to_resource_type "MimicMedicationRequest.ndjson.gz"
      = "Medication" ∧
    map_filename_to_resource_type "MimicMedicationStatement.ndjson.gz"
      = "Medication" ∧
    map_filename_to_resource_type "MimicPatient.ndjson.gz" = "Patient" ∧
    map_filename_to_resource_type "MimicObservation.ndjson.gz"
      = "Observation" ∧
    map_filename_to_resource_type "Foo.ndjson" = "Unknown" := by
  refine ⟨by decide, by decide, by decide, by decide, by decide, by decide,
    by decide, by decide⟩

end BulkImport
